import Mathlib

/-!
Verification of the dataset-augmentation script `generer_dataset.py`.

The script loads a CSV table of student predictors, validates that the
required predictor columns are present, computes a raw score
`base + w_h*Hours_Studied + w_p*Previous_Score + w_a*Attendance_Rate + noise`
with noise drawn from `(rand - 0.5) * bruit_amplitude` where `rand` is
uniform on `[0, 1)`, clips it to `[0, 20]`, derives a 0/1 pass flag at the
threshold `note_passage`, drops the temporary raw column, and writes the
result.

Tables are modelled positionally, as a list of column labels together with
rows of rational values; pandas column assignment (overwrite-in-place or
append) and column drop are modelled by `Table.setCol` and `Table.dropCol`.
The run is modelled over an abstract filesystem mapping paths to parse
outcomes.
-/

/-- Configuration constants of the script (module-level values in the
source). `defaultConfig` holds the concrete values from the source. -/
structure Config where
  base_score : ℚ
  weight_hours : ℚ
  weight_prev : ℚ
  weight_attendance : ℚ
  bruit_amplitude : ℚ
  note_passage : ℚ

/-- The concrete constants fixed in the source file. -/
def defaultConfig : Config :=
  ⟨8, 6/10, 15/100, 2/100, 15/10, 15⟩

/-- An in-memory table: ordered column labels and positional rows of
rational values (the model of a pandas DataFrame). -/
structure Table where
  cols : List String
  rows : List (List ℚ)
deriving DecidableEq

/-- Index of the first column with the given label, if present. -/
def Table.idx? (t : Table) (c : String) : Option Nat :=
  t.cols.findIdx? (fun x => x == c)

/-- The values of column `c`, one per row, if the column exists. -/
def Table.getCol? (t : Table) (c : String) : Option (List ℚ) :=
  (t.idx? c).map (fun i => t.rows.map (fun r => r.getD i 0))

/-- The values of column `c`, defaulting to the empty list when absent. -/
def Table.col (t : Table) (c : String) : List ℚ :=
  (t.getCol? c).getD []

/-- Column assignment, as in pandas: overwrite in place when the label
exists, append a new rightmost column otherwise. -/
def Table.setCol (t : Table) (c : String) (v : List ℚ) : Table :=
  match t.idx? c with
  | some i => ⟨t.cols, List.zipWith (fun r x => r.set i x) t.rows v⟩
  | none => ⟨t.cols ++ [c], List.zipWith (fun r x => r ++ [x]) t.rows v⟩

/-- Column removal, as in pandas drop: remove the labelled column. -/
def Table.dropCol (t : Table) (c : String) : Table :=
  match t.idx? c with
  | some i => ⟨t.cols.eraseIdx i, t.rows.map (fun r => r.eraseIdx i)⟩
  | none => t

/-- Wellformedness of a parsed table: distinct column labels (pandas
deduplicates on read) and rectangular rows. -/
def Table.WF (t : Table) : Prop :=
  t.cols.Nodup ∧ ∀ r ∈ t.rows, r.length = t.cols.length

instance (t : Table) : Decidable t.WF := by
  unfold Table.WF; infer_instance

/-- The noise vector: `(np.random.rand(n) - 0.5) * bruit_amplitude`, with
the raw uniform draws `u` (each in `[0, 1)`) made explicit. -/
def bruit_aleatoire (cfg : Config) (u : List ℚ) : List ℚ :=
  u.map (fun x => (x - 1/2) * cfg.bruit_amplitude)

/-- Four-way pointwise combination, truncating at the shortest list. -/
def zipWith4 {α β γ δ ε : Type} (f : α → β → γ → δ → ε) :
    List α → List β → List γ → List δ → List ε
  | a :: as, b :: bs, c :: cs, d :: ds => f a b c d :: zipWith4 f as bs cs ds
  | _, _, _, _ => []

/-- The linear score formula applied to one row's predictors and noise. -/
def rawFormula (cfg : Config) (h p a n : ℚ) : ℚ :=
  cfg.base_score + cfg.weight_hours * h + cfg.weight_prev * p +
    cfg.weight_attendance * a + n

/-- The vector of pre-clamp raw scores (`Final_Exam_Score_brut`). -/
def rawScores (cfg : Config) (t : Table) (u : List ℚ) : List ℚ :=
  zipWith4 (rawFormula cfg) (t.col "Hours_Studied") (t.col "Previous_Score")
    (t.col "Attendance_Rate") (bruit_aleatoire cfg u)

/-- The clip to `[0.0, 20.0]` applied to the raw score. -/
def clipScore (x : ℚ) : ℚ :=
  min (max x 0) 20

/-- The binary pass flag: 1 when the score reaches `note_passage`, else 0. -/
def passedFlag (cfg : Config) (x : ℚ) : ℚ :=
  if cfg.note_passage ≤ x then 1 else 0

/-- The in-memory transform of the script: assign the raw-score column,
assign its clipped version, derive the pass flag from the clipped column,
then drop the temporary raw column. -/
def transform (cfg : Config) (t : Table) (u : List ℚ) : Table :=
  let t1 := t.setCol "Final_Exam_Score_brut" (rawScores cfg t u)
  let t2 := t1.setCol "Final_Exam_Score"
    ((t1.col "Final_Exam_Score_brut").map clipScore)
  let t3 := t2.setCol "Passed_Course"
    ((t2.col "Final_Exam_Score").map (passedFlag cfg))
  t3.dropCol "Final_Exam_Score_brut"

/-- The error kinds of the pipeline. -/
inductive PipeError where
  | notFoundError
  | parseError
  | schemaError (missing : List String)
  | writeError
deriving DecidableEq

/-- Abstract filesystem for the outcome-level run model: each path is
absent (`none`), present but unparseable (`some none`), or parses to a
table; writability is a per-path predicate consulted by the write step. -/
structure FileSystem where
  file : String → Option (Option Table)
  canWrite : String → Bool

/-- The required predictor columns checked by the script. -/
def required_predictors : List String :=
  ["Hours_Studied", "Previous_Score", "Attendance_Rate"]

/-- The required columns absent from the table, in required order, as the
script's list comprehension computes them. -/
def missingPredictors (t : Table) : List String :=
  required_predictors.filter (fun c => decide (c ∉ t.cols))

/-- Writing a table to a path, leaving everything else unchanged. -/
def writeFile (fs : FileSystem) (p : String) (t : Table) : FileSystem :=
  FileSystem.mk (fun q => if q = p then some (some t) else fs.file q)
    fs.canWrite

/-- The whole run at outcome granularity: existence check, parse, schema
validation, transform, persist, returning the resulting filesystem and the
outcome. The persist step here is a single indivisible update, adequate for
claims about run outcomes; the persist stage at write granularity, where a
failure can leave a partial file behind, is modelled by `to_csv` and
`runPipelinePersist` below. -/
def runPipeline (cfg : Config) (fs : FileSystem) (inPath outPath : String)
    (u : List ℚ) : FileSystem × Except PipeError Table :=
  match fs.file inPath with
  | none => (fs, Except.error PipeError.notFoundError)
  | some none => (fs, Except.error PipeError.parseError)
  | some (some t) =>
    if missingPredictors t = [] then
      if fs.canWrite outPath then
        (writeFile fs outPath (transform cfg t u),
          Except.ok (transform cfg t u))
      else (fs, Except.error PipeError.writeError)
    else (fs, Except.error (PipeError.schemaError (missingPredictors t)))

/-- The input path fixed in the source. -/
def input_filename : String := "mockaroo_predicteurs.csv"

/-- The output path fixed in the source. -/
def output_filename : String := "dataset_etudiant_corrélé.csv"

/-- The script's run with its fixed configuration and paths. -/
def script (fs : FileSystem) (u : List ℚ) :
    FileSystem × Except PipeError Table :=
  runPipeline defaultConfig fs input_filename output_filename u

/-- A delimited file on disk as the write-granular model sees it: the
header already written and the data rows already written. -/
structure CsvFile where
  header : List String
  body : List (List ℚ)
deriving DecidableEq

/-- Disk contents at write granularity: each path may hold a file. -/
abbrev Disk := String → Option CsvFile

/-- The persist stage at write granularity, following pandas to_csv:
opening truncates the destination, then the header and the rows are
streamed in order. `failAt = none` completes the write; `failAt = some k`
models an I/O failure after `k` rows, leaving that prefix on disk (the
script's failure handler only prints a message and removes nothing). -/
def to_csv (d : Disk) (p : String) (t : Table) (failAt : Option Nat) :
    Disk × Bool :=
  match failAt with
  | none =>
    (fun q => if q = p then some (CsvFile.mk t.cols t.rows) else d q, true)
  | some k =>
    (fun q => if q = p then some (CsvFile.mk t.cols (t.rows.take k)) else d q,
      false)

/-- The run with the write-granular persist stage: load and validate as
before, transform, then stream the output with to_csv; a write failure
aborts the run, leaving whatever to_csv wrote on disk. -/
def runPipelinePersist (cfg : Config) (input : Option (Option Table))
    (d : Disk) (outPath : String) (u : List ℚ) (failAt : Option Nat) :
    Disk × Except PipeError Table :=
  match input with
  | none => (d, Except.error PipeError.notFoundError)
  | some none => (d, Except.error PipeError.parseError)
  | some (some t) =>
    if missingPredictors t = [] then
      match to_csv d outPath (transform cfg t u) failAt with
      | (d2, true) => (d2, Except.ok (transform cfg t u))
      | (d2, false) => (d2, Except.error PipeError.writeError)
    else (d, Except.error (PipeError.schemaError (missingPredictors t)))

/-! ## Generic list lemmas -/

theorem getElem?_eraseIdx_split {α : Type} (l : List α) (i k : Nat) :
    (l.eraseIdx i)[k]? = if k < i then l[k]? else l[k + 1]? := by
  induction l generalizing i k with
  | nil => simp
  | cons a as ih =>
    cases i with
    | zero => simp
    | succ i =>
      cases k with
      | zero => simp
      | succ k =>
        simp only [List.eraseIdx_cons_succ, List.getElem?_cons_succ, ih,
          Nat.succ_lt_succ_iff]

theorem getD_eraseIdx_split (l : List ℚ) (i k : Nat) :
    (l.eraseIdx i).getD k 0 = if k < i then l.getD k 0 else l.getD (k + 1) 0 := by
  simp only [List.getD_eq_getElem?_getD, getElem?_eraseIdx_split]
  by_cases h : k < i <;> simp [h]

theorem mem_zipWith {α β γ : Type} {f : α → β → γ} {as : List α} {bs : List β}
    {c : γ} (h : c ∈ List.zipWith f as bs) : ∃ a ∈ as, ∃ b ∈ bs, c = f a b := by
  induction as generalizing bs with
  | nil => simp at h
  | cons a as ih =>
    cases bs with
    | nil => simp at h
    | cons b bs =>
      simp only [List.zipWith_cons_cons, List.mem_cons] at h
      rcases h with h | h
      · exact ⟨a, List.mem_cons_self a as, b, List.mem_cons_self b bs, h⟩
      · obtain ⟨a', ha, b', hb, he⟩ := ih h
        exact ⟨a', List.mem_cons_of_mem a ha, b', List.mem_cons_of_mem b hb, he⟩

theorem map_getD_zipWith_set (rows : List (List ℚ)) (v : List ℚ) (i : Nat)
    (hlen : v.length = rows.length) (hrect : ∀ r ∈ rows, i < r.length) :
    (List.zipWith (fun r x => r.set i x) rows v).map (fun r => r.getD i 0) = v := by
  induction rows generalizing v with
  | nil =>
    cases v with
    | nil => rfl
    | cons x xs => simp at hlen
  | cons r rs ih =>
    cases v with
    | nil => simp at hlen
    | cons x xs =>
      simp only [List.zipWith_cons_cons, List.map_cons, List.cons.injEq]
      refine ⟨?_, ih xs (by simpa using hlen) (fun r' hr' => hrect r' (List.mem_cons_of_mem r hr'))⟩
      have hi : i < r.length := hrect r (List.mem_cons_self r rs)
      simp [List.getD_eq_getElem?_getD, List.getElem?_set_self hi]

theorem map_getD_zipWith_set_ne (rows : List (List ℚ)) (v : List ℚ) (i j : Nat)
    (hlen : v.length = rows.length) (hne : i ≠ j) :
    (List.zipWith (fun r x => r.set i x) rows v).map (fun r => r.getD j 0) =
      rows.map (fun r => r.getD j 0) := by
  induction rows generalizing v with
  | nil => simp
  | cons r rs ih =>
    cases v with
    | nil => simp at hlen
    | cons x xs =>
      simp only [List.zipWith_cons_cons, List.map_cons, List.cons.injEq]
      exact ⟨by simp [List.getD_eq_getElem?_getD, List.getElem?_set_ne hne],
        ih xs (by simpa using hlen)⟩

theorem map_getD_zipWith_append (rows : List (List ℚ)) (v : List ℚ) (j : Nat)
    (hlen : v.length = rows.length) (hrect : ∀ r ∈ rows, j < r.length) :
    (List.zipWith (fun r x => r ++ [x]) rows v).map (fun r => r.getD j 0) =
      rows.map (fun r => r.getD j 0) := by
  induction rows generalizing v with
  | nil => simp
  | cons r rs ih =>
    cases v with
    | nil => simp at hlen
    | cons x xs =>
      simp only [List.zipWith_cons_cons, List.map_cons, List.cons.injEq]
      refine ⟨?_, ih xs (by simpa using hlen) (fun r' hr' => hrect r' (List.mem_cons_of_mem r hr'))⟩
      have hj : j < r.length := hrect r (List.mem_cons_self r rs)
      simp [List.getD_eq_getElem?_getD, List.getElem?_append_left hj]

theorem map_getD_zipWith_append_last (rows : List (List ℚ)) (v : List ℚ) (n : Nat)
    (hlen : v.length = rows.length) (hrect : ∀ r ∈ rows, r.length = n) :
    (List.zipWith (fun r x => r ++ [x]) rows v).map (fun r => r.getD n 0) = v := by
  induction rows generalizing v with
  | nil =>
    cases v with
    | nil => rfl
    | cons x xs => simp at hlen
  | cons r rs ih =>
    cases v with
    | nil => simp at hlen
    | cons x xs =>
      simp only [List.zipWith_cons_cons, List.map_cons, List.cons.injEq]
      refine ⟨?_, ih xs (by simpa using hlen) (fun r' hr' => hrect r' (List.mem_cons_of_mem r hr'))⟩
      have hr : r.length = n := hrect r (List.mem_cons_self r rs)
      simp [List.getD_eq_getElem?_getD, List.getElem?_append_right (Nat.le_of_eq hr), hr]

theorem length_zipWith4 {α β γ δ ε : Type} (f : α → β → γ → δ → ε)
    (as : List α) (bs : List β) (cs : List γ) (ds : List δ) :
    (zipWith4 f as bs cs ds).length =
      min (min as.length bs.length) (min cs.length ds.length) := by
  induction as generalizing bs cs ds with
  | nil => simp [zipWith4]
  | cons a as ih =>
    cases bs with
    | nil => simp [zipWith4]
    | cons b bs =>
      cases cs with
      | nil => simp [zipWith4]
      | cons c cs =>
        cases ds with
        | nil => simp [zipWith4]
        | cons d ds =>
          simp only [zipWith4, List.length_cons, ih]
          omega

theorem getD_zipWith4 (f : ℚ → ℚ → ℚ → ℚ → ℚ)
    (as bs cs ds : List ℚ) (i : Nat)
    (hi : i < (zipWith4 f as bs cs ds).length) :
    (zipWith4 f as bs cs ds).getD i 0 =
      f (as.getD i 0) (bs.getD i 0) (cs.getD i 0) (ds.getD i 0) := by
  induction as generalizing bs cs ds i with
  | nil => simp [zipWith4] at hi
  | cons a as ih =>
    cases bs with
    | nil => simp [zipWith4] at hi
    | cons b bs =>
      cases cs with
      | nil => simp [zipWith4] at hi
      | cons c cs =>
        cases ds with
        | nil => simp [zipWith4] at hi
        | cons d ds =>
          cases i with
          | zero => simp [zipWith4]
          | succ i =>
            simp only [zipWith4, List.length_cons, Nat.succ_lt_succ_iff] at hi
            simpa [zipWith4] using ih bs cs ds i hi

/-! ## Table lemmas -/

theorem idx?_eq_none_iff (t : Table) (c : String) :
    t.idx? c = none ↔ c ∉ t.cols := by
  simp only [Table.idx?, List.findIdx?_eq_none_iff, beq_eq_false_iff_ne, ne_eq]
  constructor
  · intro h hc
    exact h c hc rfl
  · intro h x hx he
    exact h (he ▸ hx)

theorem idx?_mem {t : Table} {c : String} (h : c ∈ t.cols) :
    ∃ i, t.idx? c = some i := by
  rcases he : t.idx? c with _ | i
  · exact absurd h ((idx?_eq_none_iff t c).1 he)
  · exact ⟨i, rfl⟩

theorem idx?_lt_length {t : Table} {c : String} {i : Nat}
    (h : t.idx? c = some i) : i < t.cols.length := by
  rw [Table.idx?, List.findIdx?_eq_some_iff_getElem] at h
  exact h.1

theorem idx?_getElem? {t : Table} {c : String} {i : Nat}
    (h : t.idx? c = some i) : t.cols[i]? = some c := by
  rw [Table.idx?, List.findIdx?_eq_some_iff_getElem] at h
  obtain ⟨hi, hp, _⟩ := h
  rw [List.getElem?_eq_getElem hi]
  simpa [beq_iff_eq] using hp

theorem idx?_ne {t : Table} {c c' : String} {i j : Nat} (hne : c' ≠ c)
    (hi : t.idx? c = some i) (hj : t.idx? c' = some j) : j ≠ i := by
  intro he
  subst he
  have h1 := idx?_getElem? hi
  have h2 := idx?_getElem? hj
  rw [h1] at h2
  exact hne (by simpa using h2.symm)

theorem idx?_eq_of_nodup {t : Table} (hn : t.cols.Nodup) {c : String} {i : Nat}
    (h : t.cols[i]? = some c) : t.idx? c = some i := by
  have hi : i < t.cols.length := by
    by_contra hcon
    rw [List.getElem?_eq_none (Nat.le_of_not_lt hcon)] at h
    exact Option.noConfusion h
  rw [Table.idx?, List.findIdx?_eq_some_iff_getElem]
  have hic : t.cols.get ⟨i, hi⟩ = c := by
    rw [List.getElem?_eq_getElem hi] at h
    simpa using h
  refine ⟨hi, ?_, ?_⟩
  · simpa [beq_iff_eq] using hic
  · intro j hji
    have hjl : j < t.cols.length := Nat.lt_trans hji hi
    simp only [beq_iff_eq, Bool.not_eq_true, decide_eq_false_iff_not]
    intro hcon
    have hic' : t.cols[i] = c := by simpa using hic
    have hji' : j = i :=
      (@List.Nodup.getElem_inj_iff String t.cols hn j hjl i hi).mp
        (by rw [hcon, hic'])
    omega

theorem setCol_of_idx?_some {t : Table} {c : String} {i : Nat} (v : List ℚ)
    (he : t.idx? c = some i) :
    t.setCol c v = ⟨t.cols, List.zipWith (fun r x => r.set i x) t.rows v⟩ := by
  simp [Table.setCol, he]

theorem setCol_of_idx?_none {t : Table} {c : String} (v : List ℚ)
    (he : t.idx? c = none) :
    t.setCol c v = ⟨t.cols ++ [c], List.zipWith (fun r x => r ++ [x]) t.rows v⟩ := by
  simp [Table.setCol, he]

theorem idx?_mk (cols : List String) (rows : List (List ℚ)) (c : String) :
    (Table.mk cols rows).idx? c = cols.findIdx? (fun x => x == c) := rfl

theorem getCol?_mk (cols : List String) (rows : List (List ℚ)) (c : String) :
    (Table.mk cols rows).getCol? c =
      (cols.findIdx? (fun x => x == c)).map
        (fun i => rows.map (fun r => r.getD i 0)) := rfl

theorem rows_length_setCol (t : Table) (c : String) (v : List ℚ)
    (h : v.length = t.rows.length) :
    (t.setCol c v).rows.length = t.rows.length := by
  rcases he : t.idx? c with _ | i
  · rw [setCol_of_idx?_none v he]
    simp [List.length_zipWith, h]
  · rw [setCol_of_idx?_some v he]
    simp [List.length_zipWith, h]

theorem WF_setCol {t : Table} {c : String} {v : List ℚ} (hwf : t.WF)
    (_hlen : v.length = t.rows.length) : (t.setCol c v).WF := by
  obtain ⟨hnd, hrect⟩ := hwf
  rcases he : t.idx? c with _ | i
  · have hc : c ∉ t.cols := (idx?_eq_none_iff t c).1 he
    rw [setCol_of_idx?_none v he]
    constructor
    · exact List.Nodup.append hnd (List.nodup_singleton c)
        (fun a ha hb => hc ((List.mem_singleton.mp hb) ▸ ha))
    · intro r hr
      obtain ⟨r', hr', x, _, hre⟩ := mem_zipWith hr
      subst hre
      simp [hrect r' hr']
  · rw [setCol_of_idx?_some v he]
    refine ⟨hnd, ?_⟩
    intro r hr
    obtain ⟨r', hr', x, _, hre⟩ := mem_zipWith hr
    subst hre
    simp [hrect r' hr']

theorem getCol?_setCol_self {t : Table} {c : String} {v : List ℚ} (hwf : t.WF)
    (hlen : v.length = t.rows.length) : (t.setCol c v).getCol? c = some v := by
  obtain ⟨hnd, hrect⟩ := hwf
  rcases he : t.idx? c with _ | i
  · rw [setCol_of_idx?_none v he]
    have hfi : t.cols.findIdx? (fun x => x == c) = none := he
    have h1 : [c].findIdx? (fun x => x == c) = some 0 := by simp
    rw [getCol?_mk, List.findIdx?_append, hfi, h1]
    simp only [Option.none_or, Option.map_some', Nat.zero_add, Option.some.injEq]
    exact map_getD_zipWith_append_last t.rows v t.cols.length hlen hrect
  · rw [setCol_of_idx?_some v he]
    have hfi : t.cols.findIdx? (fun x => x == c) = some i := he
    rw [getCol?_mk, hfi]
    simp only [Option.map_some', Option.some.injEq]
    exact map_getD_zipWith_set t.rows v i hlen
      (fun r hr => (hrect r hr) ▸ idx?_lt_length he)

theorem getCol?_setCol_ne {t : Table} {c c' : String} {v : List ℚ} (hwf : t.WF)
    (hlen : v.length = t.rows.length) (hne : c' ≠ c) :
    (t.setCol c v).getCol? c' = t.getCol? c' := by
  obtain ⟨hnd, hrect⟩ := hwf
  rcases he : t.idx? c with _ | i
  · rw [setCol_of_idx?_none v he]
    rw [getCol?_mk, List.findIdx?_append]
    have hcc : (c == c') = false := beq_eq_false_iff_ne.mpr (fun h => hne h.symm)
    have h2 : [c].findIdx? (fun x => x == c') = none := by simp [hcc]
    rw [h2]
    rcases hj : t.idx? c' with _ | j
    · have hfj : t.cols.findIdx? (fun x => x == c') = none := hj
      simp [Table.getCol?, hj, hfj]
    · have hfj : t.cols.findIdx? (fun x => x == c') = some j := hj
      rw [hfj]
      simp only [Option.or_some, Option.map_some', Table.getCol?, hj]
      have hjl : j < t.cols.length := idx?_lt_length hj
      simp only [Option.map_some', Option.some.injEq]
      exact map_getD_zipWith_append t.rows v j hlen
        (fun r hr => (hrect r hr) ▸ hjl)
  · rw [setCol_of_idx?_some v he]
    rw [getCol?_mk]
    rcases hj : t.idx? c' with _ | j
    · have hfj : t.cols.findIdx? (fun x => x == c') = none := hj
      simp [Table.getCol?, hj, hfj]
    · have hfj : t.cols.findIdx? (fun x => x == c') = some j := hj
      rw [hfj]
      simp only [Option.map_some', Option.some.injEq, Table.getCol?, hj]
      have hji : j ≠ i := idx?_ne hne he hj
      exact map_getD_zipWith_set_ne t.rows v i j hlen (fun hh => hji hh.symm)

theorem dropCol_of_idx?_some {t : Table} {c : String} {i : Nat}
    (he : t.idx? c = some i) :
    t.dropCol c = ⟨t.cols.eraseIdx i, t.rows.map (fun r => r.eraseIdx i)⟩ := by
  simp [Table.dropCol, he]

theorem dropCol_of_idx?_none {t : Table} {c : String} (he : t.idx? c = none) :
    t.dropCol c = t := by
  simp [Table.dropCol, he]

theorem rows_length_dropCol (t : Table) (c : String) :
    (t.dropCol c).rows.length = t.rows.length := by
  rcases he : t.idx? c with _ | i
  · rw [dropCol_of_idx?_none he]
  · rw [dropCol_of_idx?_some he]
    simp

theorem getCol?_dropCol_ne {t : Table} {c c' : String} (hwf : t.WF)
    (hne : c' ≠ c) : (t.dropCol c).getCol? c' = t.getCol? c' := by
  obtain ⟨hnd, hrect⟩ := hwf
  rcases he : t.idx? c with _ | i
  · rw [dropCol_of_idx?_none he]
  · rw [dropCol_of_idx?_some he]
    rcases hj : t.idx? c' with _ | j
    · have hc' : c' ∉ t.cols := (idx?_eq_none_iff t c').1 hj
      have hcm : c' ∉ t.cols.eraseIdx i :=
        fun hmem => hc' (List.eraseIdx_subset _ _ hmem)
      have hnone : (t.cols.eraseIdx i).findIdx? (fun x => x == c') = none := by
        rw [List.findIdx?_eq_none_iff]
        intro x hx
        exact beq_eq_false_iff_ne.mpr (fun hxe => hcm (hxe ▸ hx))
      simp [Table.getCol?, idx?_mk, hnone, hj]
    · have hji : j ≠ i := idx?_ne hne he hj
      have hjl : j < t.cols.length := idx?_lt_length hj
      have hjc : t.cols[j]? = some c' := idx?_getElem? hj
      by_cases hlt : j < i
      · have hje : (t.cols.eraseIdx i)[j]? = some c' := by
          rw [getElem?_eraseIdx_split, if_pos hlt]
          exact hjc
        have hidx :
            (Table.mk (t.cols.eraseIdx i) (t.rows.map (fun r => r.eraseIdx i))).idx? c'
              = some j :=
          idx?_eq_of_nodup (List.Nodup.eraseIdx i hnd) hje
        rw [Table.getCol?, hidx, Table.getCol?, hj]
        simp only [Option.map_some', Option.some.injEq, List.map_map]
        refine List.map_congr_left ?_
        intro r _
        simp only [Function.comp_apply, getD_eraseIdx_split, if_pos hlt]
      · have hij : i < j := by omega
        have hje : (t.cols.eraseIdx i)[j - 1]? = some c' := by
          rw [getElem?_eraseIdx_split, if_neg (by omega)]
          have : j - 1 + 1 = j := by omega
          rw [this]
          exact hjc
        have hidx :
            (Table.mk (t.cols.eraseIdx i) (t.rows.map (fun r => r.eraseIdx i))).idx? c'
              = some (j - 1) :=
          idx?_eq_of_nodup (List.Nodup.eraseIdx i hnd) hje
        rw [Table.getCol?, hidx, Table.getCol?, hj]
        simp only [Option.map_some', Option.some.injEq, List.map_map]
        refine List.map_congr_left ?_
        intro r _
        simp only [Function.comp_apply, getD_eraseIdx_split, if_neg (by omega : ¬ j - 1 < i)]
        congr 1
        omega

theorem col_length_of_mem {t : Table} {c : String} (h : c ∈ t.cols) :
    (t.col c).length = t.rows.length := by
  obtain ⟨i, hi⟩ := idx?_mem h
  simp [Table.col, Table.getCol?, hi]

theorem col_of_getCol? {t : Table} {c : String} {v : List ℚ}
    (h : t.getCol? c = some v) : t.col c = v := by
  simp [Table.col, h]

/-- Validation succeeds exactly when every required predictor is present. -/
theorem missingPredictors_eq_nil_iff (t : Table) :
    missingPredictors t = [] ↔ ∀ c ∈ required_predictors, c ∈ t.cols := by
  simp only [missingPredictors, List.filter_eq_nil_iff, decide_eq_true_eq,
    not_not]

/-! ## Transform lemmas -/

/-- The clipped scores the transform assigns to `Final_Exam_Score`. -/
def scoresOf (cfg : Config) (t : Table) (u : List ℚ) : List ℚ :=
  (rawScores cfg t u).map clipScore

/-- The 0/1 flags the transform assigns to `Passed_Course`. -/
def passedOf (cfg : Config) (t : Table) (u : List ℚ) : List ℚ :=
  (scoresOf cfg t u).map (passedFlag cfg)

theorem rawScores_length (cfg : Config) {t : Table} (u : List ℚ)
    (hv : missingPredictors t = []) (hu : u.length = t.rows.length) :
    (rawScores cfg t u).length = t.rows.length := by
  have hall := (missingPredictors_eq_nil_iff t).1 hv
  have hH : "Hours_Studied" ∈ t.cols := hall _ (by simp [required_predictors])
  have hP : "Previous_Score" ∈ t.cols := hall _ (by simp [required_predictors])
  have hA : "Attendance_Rate" ∈ t.cols := hall _ (by simp [required_predictors])
  rw [rawScores, length_zipWith4, col_length_of_mem hH, col_length_of_mem hP,
    col_length_of_mem hA]
  simp [bruit_aleatoire, hu]

theorem rawScores_getD (cfg : Config) {t : Table} (u : List ℚ)
    (hv : missingPredictors t = []) (hu : u.length = t.rows.length)
    (i : Nat) (hi : i < t.rows.length) :
    (rawScores cfg t u).getD i 0 =
      rawFormula cfg ((t.col "Hours_Studied").getD i 0)
        ((t.col "Previous_Score").getD i 0)
        ((t.col "Attendance_Rate").getD i 0)
        ((bruit_aleatoire cfg u).getD i 0) := by
  have h1 : (rawScores cfg t u).length = t.rows.length :=
    rawScores_length cfg u hv hu
  rw [rawScores] at h1 ⊢
  exact getD_zipWith4 _ _ _ _ _ i (h1.symm ▸ hi)

/-- Master lemma: after the transform, `Final_Exam_Score` holds the clipped
scores, `Passed_Course` the derived flags, and the row count is unchanged. -/
theorem transform_getCol? (cfg : Config) {t : Table} (u : List ℚ)
    (hwf : t.WF) (hv : missingPredictors t = [])
    (hu : u.length = t.rows.length) :
    (transform cfg t u).getCol? "Final_Exam_Score" = some (scoresOf cfg t u) ∧
    (transform cfg t u).getCol? "Passed_Course" = some (passedOf cfg t u) ∧
    (transform cfg t u).rows.length = t.rows.length := by
  have hraw : (rawScores cfg t u).length = t.rows.length :=
    rawScores_length cfg u hv hu
  set raw := rawScores cfg t u with hrawdef
  set t1 := t.setCol "Final_Exam_Score_brut" raw with ht1def
  have hwf1 : t1.WF := WF_setCol hwf hraw
  have hlen1 : t1.rows.length = t.rows.length :=
    rows_length_setCol t _ raw hraw
  have hc1 : t1.col "Final_Exam_Score_brut" = raw :=
    col_of_getCol? (getCol?_setCol_self hwf hraw)
  set sc := (t1.col "Final_Exam_Score_brut").map clipScore with hscdef
  have hsc : sc = raw.map clipScore := by rw [hscdef, hc1]
  have hsclen : sc.length = t1.rows.length := by
    rw [hsc, List.length_map, hraw, hlen1]
  set t2 := t1.setCol "Final_Exam_Score" sc with ht2def
  have hwf2 : t2.WF := WF_setCol hwf1 hsclen
  have hlen2 : t2.rows.length = t.rows.length := by
    rw [ht2def, rows_length_setCol t1 _ sc hsclen, hlen1]
  have hc2 : t2.col "Final_Exam_Score" = sc :=
    col_of_getCol? (getCol?_setCol_self hwf1 hsclen)
  set pc := (t2.col "Final_Exam_Score").map (passedFlag cfg) with hpcdef
  have hpc : pc = sc.map (passedFlag cfg) := by rw [hpcdef, hc2]
  have hpclen : pc.length = t2.rows.length := by
    rw [hpc, List.length_map, hsclen, hlen1, hlen2]
  set t3 := t2.setCol "Passed_Course" pc with ht3def
  have hwf3 : t3.WF := WF_setCol hwf2 hpclen
  have hlen3 : t3.rows.length = t.rows.length := by
    rw [ht3def, rows_length_setCol t2 _ pc hpclen, hlen2]
  have h3pc : t3.getCol? "Passed_Course" = some pc :=
    getCol?_setCol_self hwf2 hpclen
  have h3fes : t3.getCol? "Final_Exam_Score" = some sc := by
    rw [ht3def, getCol?_setCol_ne hwf2 hpclen (by decide)]
    exact getCol?_setCol_self hwf1 hsclen
  have htr : transform cfg t u = t3.dropCol "Final_Exam_Score_brut" := rfl
  refine ⟨?_, ?_, ?_⟩
  · rw [htr, getCol?_dropCol_ne hwf3 (by decide), h3fes, hsc]
    simp only [scoresOf]
  · rw [htr, getCol?_dropCol_ne hwf3 (by decide), h3pc, hpc, hsc]
    simp only [passedOf, scoresOf]
  · rw [htr, rows_length_dropCol, hlen3]

theorem getD_map_of_lt (l : List ℚ) (f : ℚ → ℚ) (i : Nat) (hi : i < l.length) :
    (l.map f).getD i 0 = f (l.getD i 0) := by
  simp [List.getD_eq_getElem?_getD, List.getElem?_eq_getElem hi]

theorem getD_mem_of_lt (l : List ℚ) (i : Nat) (hi : i < l.length) :
    l.getD i 0 ∈ l := by
  simp only [List.getD_eq_getElem?_getD, List.getElem?_eq_getElem hi,
    Option.getD_some]
  exact List.getElem_mem hi

/-! ## Claim theorems -/

/-- C1: for every wellformed input table that passes validation and every
noise draw, every value of the output column Final_Exam_Score lies in the
closed interval from 0 to 20. -/
theorem C1_final_score_in_bounds (cfg : Config) (t : Table) (u : List ℚ)
    (hwf : t.WF) (hv : missingPredictors t = [])
    (hu : u.length = t.rows.length) :
    ∃ s, (transform cfg t u).getCol? "Final_Exam_Score" = some s ∧
      ∀ x ∈ s, 0 ≤ x ∧ x ≤ 20 := by
  obtain ⟨hfes, -, -⟩ := transform_getCol? cfg u hwf hv hu
  refine ⟨scoresOf cfg t u, hfes, ?_⟩
  intro x hx
  simp only [scoresOf, List.mem_map] at hx
  obtain ⟨y, -, hy⟩ := hx
  subst hy
  unfold clipScore
  exact ⟨le_min (le_max_right y 0) (by norm_num), min_le_right _ _⟩

/-- Witness for C1 at a concrete validated table and noise draw. -/
theorem C1_witness :
    ∃ s,
      (transform defaultConfig
        (Table.mk ["Hours_Studied", "Previous_Score", "Attendance_Rate"]
          [[10, 80, 90]]) [1/2]).getCol? "Final_Exam_Score" = some s ∧
      ∀ x ∈ s, 0 ≤ x ∧ x ≤ 20 :=
  C1_final_score_in_bounds defaultConfig
    (Table.mk ["Hours_Studied", "Previous_Score", "Attendance_Rate"]
      [[10, 80, 90]]) [1/2] (by decide) (by decide) (by decide)

/-- C2: in the output, Passed_Course is 1 exactly when that row's
Final_Exam_Score is at least the pass threshold 15, and 0 otherwise; no
other value occurs. -/
theorem C2_passed_iff_threshold (t : Table) (u : List ℚ)
    (hwf : t.WF) (hv : missingPredictors t = [])
    (hu : u.length = t.rows.length) :
    ∃ s p,
      (transform defaultConfig t u).getCol? "Final_Exam_Score" = some s ∧
      (transform defaultConfig t u).getCol? "Passed_Course" = some p ∧
      p.length = s.length ∧
      ∀ i, i < p.length →
        (p.getD i 0 = 1 ↔ 15 ≤ s.getD i 0) ∧
        (p.getD i 0 = 0 ∨ p.getD i 0 = 1) := by
  obtain ⟨hfes, hpc, -⟩ := transform_getCol? defaultConfig u hwf hv hu
  refine ⟨scoresOf defaultConfig t u, passedOf defaultConfig t u, hfes, hpc,
    by simp [passedOf], ?_⟩
  intro i hi
  have hilt : i < (scoresOf defaultConfig t u).length := by
    simpa [passedOf] using hi
  have hget : (passedOf defaultConfig t u).getD i 0 =
      passedFlag defaultConfig ((scoresOf defaultConfig t u).getD i 0) :=
    getD_map_of_lt _ _ i hilt
  rw [hget]
  by_cases hx : (15 : ℚ) ≤ (scoresOf defaultConfig t u).getD i 0
  · have : passedFlag defaultConfig ((scoresOf defaultConfig t u).getD i 0) = 1 := by
      simp only [passedFlag]
      rw [if_pos (by simpa [defaultConfig] using hx)]
    rw [this]
    exact ⟨iff_of_true rfl hx, Or.inr rfl⟩
  · have : passedFlag defaultConfig ((scoresOf defaultConfig t u).getD i 0) = 0 := by
      simp only [passedFlag]
      rw [if_neg (by simpa [defaultConfig] using hx)]
    rw [this]
    exact ⟨iff_of_false (by norm_num) hx, Or.inl rfl⟩

/-- Witness for C2 at a concrete validated table and noise draw. -/
theorem C2_witness :
    ∃ s p,
      (transform defaultConfig
        (Table.mk ["Hours_Studied", "Previous_Score", "Attendance_Rate"]
          [[10, 80, 90], [0, 0, 0]]) [1/2, 1/2]).getCol?
        "Final_Exam_Score" = some s ∧
      (transform defaultConfig
        (Table.mk ["Hours_Studied", "Previous_Score", "Attendance_Rate"]
          [[10, 80, 90], [0, 0, 0]]) [1/2, 1/2]).getCol?
        "Passed_Course" = some p ∧
      p.length = s.length ∧
      ∀ i, i < p.length →
        (p.getD i 0 = 1 ↔ 15 ≤ s.getD i 0) ∧
        (p.getD i 0 = 0 ∨ p.getD i 0 = 1) :=
  C2_passed_iff_threshold
    (Table.mk ["Hours_Studied", "Previous_Score", "Attendance_Rate"]
      [[10, 80, 90], [0, 0, 0]]) [1/2, 1/2] (by decide) (by decide) (by decide)

/-- C3: each pre-clamp raw score is the configured affine combination of the
row's predictors plus that row's noise value, and every noise value lies in
the closed interval from minus half to plus half of the noise amplitude. -/
theorem C3_raw_formula (cfg : Config) (t : Table) (u : List ℚ)
    (hv : missingPredictors t = []) (hu : u.length = t.rows.length)
    (hampl : 0 ≤ cfg.bruit_amplitude) (hui : ∀ x ∈ u, 0 ≤ x ∧ x < 1) :
    (rawScores cfg t u).length = t.rows.length ∧
    ∀ i, i < t.rows.length →
      (rawScores cfg t u).getD i 0 =
        cfg.base_score +
          cfg.weight_hours * (t.col "Hours_Studied").getD i 0 +
          cfg.weight_prev * (t.col "Previous_Score").getD i 0 +
          cfg.weight_attendance * (t.col "Attendance_Rate").getD i 0 +
          (bruit_aleatoire cfg u).getD i 0 ∧
      -(cfg.bruit_amplitude / 2) ≤ (bruit_aleatoire cfg u).getD i 0 ∧
      (bruit_aleatoire cfg u).getD i 0 ≤ cfg.bruit_amplitude / 2 := by
  refine ⟨rawScores_length cfg u hv hu, ?_⟩
  intro i hi
  have hiu : i < u.length := by rw [hu]; exact hi
  have hnoise : (bruit_aleatoire cfg u).getD i 0 =
      (u.getD i 0 - 1/2) * cfg.bruit_amplitude :=
    getD_map_of_lt u _ i hiu
  obtain ⟨hx0, hx1⟩ := hui (u.getD i 0) (getD_mem_of_lt u i hiu)
  refine ⟨by simpa [rawFormula] using rawScores_getD cfg u hv hu i hi, ?_, ?_⟩
  · rw [hnoise]
    nlinarith [hx0, hampl]
  · rw [hnoise]
    nlinarith [hx1, hampl]

/-- Witness for C3 at a concrete validated table and noise draw. -/
theorem C3_witness :
    (rawScores defaultConfig
        (Table.mk ["Hours_Studied", "Previous_Score", "Attendance_Rate"]
          [[10, 80, 90]]) [1/2]).length =
      (Table.mk ["Hours_Studied", "Previous_Score", "Attendance_Rate"]
          [[10, 80, 90]]).rows.length ∧
    ∀ i, i < (Table.mk ["Hours_Studied", "Previous_Score", "Attendance_Rate"]
          [[10, 80, 90]]).rows.length →
      (rawScores defaultConfig
          (Table.mk ["Hours_Studied", "Previous_Score", "Attendance_Rate"]
            [[10, 80, 90]]) [1/2]).getD i 0 =
        defaultConfig.base_score +
          defaultConfig.weight_hours *
            ((Table.mk ["Hours_Studied", "Previous_Score", "Attendance_Rate"]
              [[10, 80, 90]]).col "Hours_Studied").getD i 0 +
          defaultConfig.weight_prev *
            ((Table.mk ["Hours_Studied", "Previous_Score", "Attendance_Rate"]
              [[10, 80, 90]]).col "Previous_Score").getD i 0 +
          defaultConfig.weight_attendance *
            ((Table.mk ["Hours_Studied", "Previous_Score", "Attendance_Rate"]
              [[10, 80, 90]]).col "Attendance_Rate").getD i 0 +
          (bruit_aleatoire defaultConfig [1/2]).getD i 0 ∧
      -(defaultConfig.bruit_amplitude / 2) ≤
        (bruit_aleatoire defaultConfig [1/2]).getD i 0 ∧
      (bruit_aleatoire defaultConfig [1/2]).getD i 0 ≤
        defaultConfig.bruit_amplitude / 2 :=
  C3_raw_formula defaultConfig
    (Table.mk ["Hours_Studied", "Previous_Score", "Attendance_Rate"]
      [[10, 80, 90]]) [1/2] (by decide) (by decide)
    (by norm_num [defaultConfig])
    (by
      intro x hx
      rw [List.mem_singleton] at hx
      subst hx
      constructor <;> norm_num)

/-- Counterexample to C5 as stated: a run whose persist stage fails after
zero rows still aborts with a write error, yet the destination path now
holds a file (the truncated, header-only output) that is neither its old
content nor the complete output: a partial output file remains. -/
theorem C5_counterexample :
    (runPipelinePersist defaultConfig
        (some (some (Table.mk ["Hours_Studied", "Previous_Score",
          "Attendance_Rate"] [[10, 80, 90]])))
        (fun _ => none) output_filename [1/2] (some 0)).2 =
      Except.error PipeError.writeError ∧
    (runPipelinePersist defaultConfig
        (some (some (Table.mk ["Hours_Studied", "Previous_Score",
          "Attendance_Rate"] [[10, 80, 90]])))
        (fun _ => none) output_filename [1/2] (some 0)).1 output_filename ≠
      none ∧
    (runPipelinePersist defaultConfig
        (some (some (Table.mk ["Hours_Studied", "Previous_Score",
          "Attendance_Rate"] [[10, 80, 90]])))
        (fun _ => none) output_filename [1/2] (some 0)).1 output_filename ≠
      some (CsvFile.mk
        (transform defaultConfig (Table.mk ["Hours_Studied",
          "Previous_Score", "Attendance_Rate"] [[10, 80, 90]]) [1/2]).cols
        (transform defaultConfig (Table.mk ["Hours_Studied",
          "Previous_Score", "Attendance_Rate"] [[10, 80, 90]]) [1/2]).rows) := by
  have hm : missingPredictors (Table.mk ["Hours_Studied", "Previous_Score",
      "Attendance_Rate"] [[10, 80, 90]]) = [] := by decide
  have h1 : (runPipelinePersist defaultConfig
      (some (some (Table.mk ["Hours_Studied", "Previous_Score",
        "Attendance_Rate"] [[10, 80, 90]])))
      (fun _ => none) output_filename [1/2] (some 0)).1 output_filename =
      some (CsvFile.mk
        (transform defaultConfig (Table.mk ["Hours_Studied",
          "Previous_Score", "Attendance_Rate"] [[10, 80, 90]]) [1/2]).cols
        []) := by
    simp [runPipelinePersist, to_csv, hm]
  have hwfT : (Table.mk ["Hours_Studied", "Previous_Score",
      "Attendance_Rate"] [[10, 80, 90]]).WF := by decide
  have hlen : (transform defaultConfig (Table.mk ["Hours_Studied",
      "Previous_Score", "Attendance_Rate"] [[10, 80, 90]])
      [1/2]).rows.length = 1 := by
    have h2 := (transform_getCol? defaultConfig [1/2] hwfT hm (by decide)).2.2
    simpa using h2
  refine ⟨?_, ?_, ?_⟩
  · simp [runPipelinePersist, to_csv, hm]
  · rw [h1]
    simp
  · rw [h1]
    intro heq
    simp only [Option.some.injEq, CsvFile.mk.injEq] at heq
    obtain ⟨-, hb⟩ := heq
    rw [← hb] at hlen
    simp at hlen

/-- C5 (amended): NotFoundError, ParseError and SchemaError abort the run
with the disk untouched, so no output at all is written in those failed
runs; a WriteError also aborts the run, but then the destination holds a
prefix of the intended output (a partial output file), with every other
path untouched. -/
theorem C5_amended_error_handling (cfg : Config)
    (input : Option (Option Table)) (d : Disk) (op : String) (u : List ℚ)
    (failAt : Option Nat) (e : PipeError)
    (h : (runPipelinePersist cfg input d op u failAt).2 = Except.error e) :
    (e ≠ PipeError.writeError →
      (runPipelinePersist cfg input d op u failAt).1 = d) ∧
    (e = PipeError.writeError →
      ∃ t k, input = some (some t) ∧ missingPredictors t = [] ∧
        failAt = some k ∧
        (runPipelinePersist cfg input d op u failAt).1 op =
          some (CsvFile.mk (transform cfg t u).cols
            ((transform cfg t u).rows.take k)) ∧
        ∀ q, q ≠ op →
          (runPipelinePersist cfg input d op u failAt).1 q = d q) := by
  rcases input with _ | tv
  · constructor
    · intro _
      rfl
    · intro hw
      exfalso
      have he : PipeError.notFoundError = e := by
        simpa [runPipelinePersist] using h
      rw [hw] at he
      exact PipeError.noConfusion he
  · rcases tv with _ | t
    · constructor
      · intro _
        rfl
      · intro hw
        exfalso
        have he : PipeError.parseError = e := by
          simpa [runPipelinePersist] using h
        rw [hw] at he
        exact PipeError.noConfusion he
    · by_cases hm : missingPredictors t = []
      · rcases hfail : failAt with _ | k
        · exfalso
          rw [hfail] at h
          simp [runPipelinePersist, to_csv, hm] at h
        · have he : PipeError.writeError = e := by
            rw [hfail] at h
            simpa [runPipelinePersist, to_csv, hm] using h
          constructor
          · intro hne
            exact absurd he.symm hne
          · intro _
            refine ⟨t, k, rfl, hm, rfl, ?_, ?_⟩
            · simp [runPipelinePersist, to_csv, hm, hfail]
            · intro q hq
              simp [runPipelinePersist, to_csv, hm, hfail, hq]
      · constructor
        · intro _
          simp [runPipelinePersist, hm]
        · intro hw
          exfalso
          have he : PipeError.schemaError (missingPredictors t) = e := by
            simpa [runPipelinePersist, hm] using h
          rw [hw] at he
          exact PipeError.noConfusion he

/-- Witness for the amended C5 at a concrete write failure after zero
rows: the run aborts with a write error and the destination holds exactly
the empty prefix of the output, with every other path untouched. -/
theorem C5_amended_witness :
    (PipeError.writeError ≠ PipeError.writeError →
      (runPipelinePersist defaultConfig
        (some (some (Table.mk ["Hours_Studied", "Previous_Score",
          "Attendance_Rate"] [[10, 80, 90]])))
        (fun _ => none) output_filename [1/2] (some 0)).1 =
        (fun _ => none)) ∧
    (PipeError.writeError = PipeError.writeError →
      ∃ t k,
        (some (some (Table.mk ["Hours_Studied", "Previous_Score",
          "Attendance_Rate"] [[10, 80, 90]])) : Option (Option Table)) =
          some (some t) ∧
        missingPredictors t = [] ∧
        (some 0 : Option Nat) = some k ∧
        (runPipelinePersist defaultConfig
          (some (some (Table.mk ["Hours_Studied", "Previous_Score",
            "Attendance_Rate"] [[10, 80, 90]])))
          (fun _ => none) output_filename [1/2] (some 0)).1 output_filename =
          some (CsvFile.mk (transform defaultConfig t [1/2]).cols
            ((transform defaultConfig t [1/2]).rows.take k)) ∧
        ∀ q, q ≠ output_filename →
          (runPipelinePersist defaultConfig
            (some (some (Table.mk ["Hours_Studied", "Previous_Score",
              "Attendance_Rate"] [[10, 80, 90]])))
            (fun _ => none) output_filename [1/2] (some 0)).1 q =
          (fun _ => (none : Option CsvFile)) q) :=
  C5_amended_error_handling defaultConfig
    (some (some (Table.mk ["Hours_Studied", "Previous_Score",
      "Attendance_Rate"] [[10, 80, 90]])))
    (fun _ => none) output_filename [1/2] (some 0) PipeError.writeError
    (by
      have hm : missingPredictors (Table.mk ["Hours_Studied",
          "Previous_Score", "Attendance_Rate"] [[10, 80, 90]]) = [] := by
        decide
      simp [runPipelinePersist, to_csv, hm])

/-- C6: when the parsed table lacks required predictors, the run fails with
a schema error carrying the missing names, the filesystem is unchanged, and
the carried list holds exactly the required columns absent from the table. -/
theorem C6_schema_gate (cfg : Config) (fs : FileSystem) (ip op : String)
    (u : List ℚ) (t : Table) (h1 : fs.file ip = some (some t))
    (h2 : missingPredictors t ≠ []) :
    runPipeline cfg fs ip op u =
      (fs, Except.error (PipeError.schemaError (missingPredictors t))) ∧
    ∀ c, c ∈ missingPredictors t ↔ c ∈ required_predictors ∧ c ∉ t.cols := by
  constructor
  · simp [runPipeline, h1, h2]
  · intro c
    simp [missingPredictors, List.mem_filter]

/-- Witness for C6: a table missing `Attendance_Rate` triggers the schema
error naming exactly that column, with no write. -/
theorem C6_witness :
    (runPipeline defaultConfig
        (FileSystem.mk
          (fun p => if p = input_filename then
            some (some (Table.mk ["Hours_Studied", "Previous_Score"] [[1, 2]]))
            else none)
          (fun _ => true))
        input_filename output_filename []) =
      (FileSystem.mk
          (fun p => if p = input_filename then
            some (some (Table.mk ["Hours_Studied", "Previous_Score"] [[1, 2]]))
            else none)
          (fun _ => true),
        Except.error (PipeError.schemaError
          (missingPredictors (Table.mk ["Hours_Studied", "Previous_Score"] [[1, 2]])))) ∧
    ∀ c, c ∈ missingPredictors (Table.mk ["Hours_Studied", "Previous_Score"] [[1, 2]]) ↔
      c ∈ required_predictors ∧
        c ∉ (Table.mk ["Hours_Studied", "Previous_Score"] [[1, 2]]).cols :=
  C6_schema_gate defaultConfig
    (FileSystem.mk
      (fun p => if p = input_filename then
        some (some (Table.mk ["Hours_Studied", "Previous_Score"] [[1, 2]]))
        else none)
      (fun _ => true))
    input_filename output_filename []
    (Table.mk ["Hours_Studied", "Previous_Score"] [[1, 2]])
    (by simp) (by decide)

/-- C7: a nonexistent input path makes the run fail with the not-found
error, returning the filesystem unchanged, before any computation. -/
theorem C7_missing_file_gate (cfg : Config) (fs : FileSystem)
    (ip op : String) (u : List ℚ) (h : fs.file ip = none) :
    runPipeline cfg fs ip op u = (fs, Except.error PipeError.notFoundError) := by
  unfold runPipeline
  rw [h]

/-- Witness for C7 on a concrete empty filesystem. -/
theorem C7_witness :
    runPipeline defaultConfig (FileSystem.mk (fun _ => none) (fun _ => false))
        input_filename output_filename [] =
      (FileSystem.mk (fun _ => none) (fun _ => false),
        Except.error PipeError.notFoundError) :=
  C7_missing_file_gate defaultConfig
    (FileSystem.mk (fun _ => none) (fun _ => false))
    input_filename output_filename [] rfl

/-- With amplitude zero every noise vector collapses to zeros. -/
theorem bruit_aleatoire_of_amplitude_zero (cfg : Config)
    (h : cfg.bruit_amplitude = 0) (u : List ℚ) :
    bruit_aleatoire cfg u = List.replicate u.length 0 := by
  simp [bruit_aleatoire, h]

/-- With amplitude zero the transform ignores the noise draw. -/
theorem transform_of_amplitude_zero (cfg : Config)
    (h : cfg.bruit_amplitude = 0) (t : Table) (u1 u2 : List ℚ)
    (hlen : u1.length = u2.length) :
    transform cfg t u1 = transform cfg t u2 := by
  have hb : bruit_aleatoire cfg u1 = bruit_aleatoire cfg u2 := by
    rw [bruit_aleatoire_of_amplitude_zero cfg h,
      bruit_aleatoire_of_amplitude_zero cfg h, hlen]
  have hr : rawScores cfg t u1 = rawScores cfg t u2 := by
    rw [rawScores, rawScores, hb]
  unfold transform
  rw [hr]

/-- C9: with noise amplitude zero the whole run is deterministic; two runs
on the same input agree whatever the states of the random generator. -/
theorem C9_deterministic_when_amplitude_zero (cfg : Config)
    (fs : FileSystem) (ip op : String) (u1 u2 : List ℚ)
    (hamp : cfg.bruit_amplitude = 0) (hlen : u1.length = u2.length) :
    runPipeline cfg fs ip op u1 = runPipeline cfg fs ip op u2 := by
  have htr : ∀ t : Table, transform cfg t u1 = transform cfg t u2 :=
    fun t => transform_of_amplitude_zero cfg hamp t u1 u2 hlen
  rcases hf : fs.file ip with _ | tv
  · simp [runPipeline, hf]
  · rcases tv with _ | t
    · simp [runPipeline, hf]
    · by_cases hm : missingPredictors t = []
      · by_cases hw : fs.canWrite op
        · simp [runPipeline, hf, hm, hw, htr t]
        · simp [runPipeline, hf, hm, hw]
      · simp [runPipeline, hf, hm]

/-- Witness for C9: two different draws give the same run when the
configured amplitude is zero. -/
theorem C9_witness :
    runPipeline (Config.mk 8 (6/10) (15/100) (2/100) 0 15)
        (FileSystem.mk
          (fun p => if p = input_filename then
            some (some (Table.mk
              ["Hours_Studied", "Previous_Score", "Attendance_Rate"]
              [[10, 80, 90]]))
            else none)
          (fun _ => true))
        input_filename output_filename [0] =
      runPipeline (Config.mk 8 (6/10) (15/100) (2/100) 0 15)
        (FileSystem.mk
          (fun p => if p = input_filename then
            some (some (Table.mk
              ["Hours_Studied", "Previous_Score", "Attendance_Rate"]
              [[10, 80, 90]]))
            else none)
          (fun _ => true))
        input_filename output_filename [1/2] :=
  C9_deterministic_when_amplitude_zero (Config.mk 8 (6/10) (15/100) (2/100) 0 15)
    (FileSystem.mk
      (fun p => if p = input_filename then
        some (some (Table.mk
          ["Hours_Studied", "Previous_Score", "Attendance_Rate"]
          [[10, 80, 90]]))
        else none)
      (fun _ => true))
    input_filename output_filename [0] [1/2] rfl rfl

/-- C10: for a fixed noise value, the clamped score and the derived pass
flag are monotone non-decreasing in each predictor under the source's
positive weights. -/
theorem C10_monotone_in_predictors (h1 h2 p1 p2 a1 a2 n : ℚ)
    (hh : h1 ≤ h2) (hp : p1 ≤ p2) (ha : a1 ≤ a2) :
    clipScore (rawFormula defaultConfig h1 p1 a1 n) ≤
      clipScore (rawFormula defaultConfig h2 p2 a2 n) ∧
    passedFlag defaultConfig (clipScore (rawFormula defaultConfig h1 p1 a1 n)) ≤
      passedFlag defaultConfig (clipScore (rawFormula defaultConfig h2 p2 a2 n)) := by
  have hraw : rawFormula defaultConfig h1 p1 a1 n ≤
      rawFormula defaultConfig h2 p2 a2 n := by
    simp only [rawFormula, defaultConfig]
    nlinarith [hh, hp, ha]
  have hclip : clipScore (rawFormula defaultConfig h1 p1 a1 n) ≤
      clipScore (rawFormula defaultConfig h2 p2 a2 n) := by
    unfold clipScore
    exact min_le_min (max_le_max hraw (le_refl 0)) (le_refl 20)
  refine ⟨hclip, ?_⟩
  unfold passedFlag
  by_cases hx : defaultConfig.note_passage ≤
      clipScore (rawFormula defaultConfig h1 p1 a1 n)
  · rw [if_pos hx, if_pos (le_trans hx hclip)]
  · rw [if_neg hx]
    by_cases hy : defaultConfig.note_passage ≤
        clipScore (rawFormula defaultConfig h2 p2 a2 n)
    · rw [if_pos hy]
      norm_num
    · rw [if_neg hy]

/-- Witness for C10 at concrete predictor values. -/
theorem C10_witness :
    clipScore (rawFormula defaultConfig 1 50 60 0) ≤
      clipScore (rawFormula defaultConfig 2 70 80 0) ∧
    passedFlag defaultConfig (clipScore (rawFormula defaultConfig 1 50 60 0)) ≤
      passedFlag defaultConfig (clipScore (rawFormula defaultConfig 2 70 80 0)) :=
  C10_monotone_in_predictors 1 2 50 70 60 80 0 (by norm_num) (by norm_num)
    (by norm_num)

theorem cols_setCol_of_not_mem {t : Table} {c : String} (h : c ∉ t.cols)
    (v : List ℚ) : (t.setCol c v).cols = t.cols ++ [c] := by
  rw [setCol_of_idx?_none v ((idx?_eq_none_iff t c).2 h)]

/-- When the input uses none of the reserved derived column names, the
transform appends exactly the two derived columns and leaves every original
column's values untouched. -/
theorem transform_preserves_of_no_reserved (cfg : Config) {t : Table}
    (u : List ℚ) (hwf : t.WF) (hv : missingPredictors t = [])
    (hu : u.length = t.rows.length)
    (hbr : "Final_Exam_Score_brut" ∉ t.cols)
    (hfe : "Final_Exam_Score" ∉ t.cols)
    (hpa : "Passed_Course" ∉ t.cols) :
    (transform cfg t u).cols =
      t.cols ++ ["Final_Exam_Score", "Passed_Course"] ∧
    ∀ c ∈ t.cols, (transform cfg t u).getCol? c = t.getCol? c := by
  have hraw : (rawScores cfg t u).length = t.rows.length :=
    rawScores_length cfg u hv hu
  set raw := rawScores cfg t u with hrawdef
  set t1 := t.setCol "Final_Exam_Score_brut" raw with ht1def
  have hwf1 : t1.WF := WF_setCol hwf hraw
  have hlen1 : t1.rows.length = t.rows.length :=
    rows_length_setCol t _ raw hraw
  have hcols1 : t1.cols = t.cols ++ ["Final_Exam_Score_brut"] :=
    cols_setCol_of_not_mem hbr raw
  have hc1 : t1.col "Final_Exam_Score_brut" = raw :=
    col_of_getCol? (getCol?_setCol_self hwf hraw)
  set sc := (t1.col "Final_Exam_Score_brut").map clipScore with hscdef
  have hsc : sc = raw.map clipScore := by rw [hscdef, hc1]
  have hsclen : sc.length = t1.rows.length := by
    rw [hsc, List.length_map, hraw, hlen1]
  have hfe1 : "Final_Exam_Score" ∉ t1.cols := by
    rw [hcols1]
    simp only [List.mem_append, List.mem_singleton]
    rintro (h | h)
    · exact hfe h
    · exact absurd h (by decide)
  set t2 := t1.setCol "Final_Exam_Score" sc with ht2def
  have hwf2 : t2.WF := WF_setCol hwf1 hsclen
  have hlen2 : t2.rows.length = t.rows.length := by
    rw [ht2def, rows_length_setCol t1 _ sc hsclen, hlen1]
  have hcols2 : t2.cols = t1.cols ++ ["Final_Exam_Score"] :=
    cols_setCol_of_not_mem hfe1 sc
  have hc2 : t2.col "Final_Exam_Score" = sc :=
    col_of_getCol? (getCol?_setCol_self hwf1 hsclen)
  set pc := (t2.col "Final_Exam_Score").map (passedFlag cfg) with hpcdef
  have hpclen : pc.length = t2.rows.length := by
    rw [hpcdef, hc2, List.length_map, hsclen, hlen1, hlen2]
  have hpa2 : "Passed_Course" ∉ t2.cols := by
    rw [hcols2, hcols1]
    simp only [List.mem_append, List.mem_singleton]
    rintro ((h | h) | h)
    · exact hpa h
    · exact absurd h (by decide)
    · exact absurd h (by decide)
  set t3 := t2.setCol "Passed_Course" pc with ht3def
  have hwf3 : t3.WF := WF_setCol hwf2 hpclen
  have hcols3 : t3.cols = t2.cols ++ ["Passed_Course"] :=
    cols_setCol_of_not_mem hpa2 pc
  have hcolsflat : t3.cols =
      t.cols ++ ["Final_Exam_Score_brut", "Final_Exam_Score", "Passed_Course"] := by
    rw [hcols3, hcols2, hcols1]
    simp [List.append_assoc]
  have hidxb : t3.idx? "Final_Exam_Score_brut" = some t.cols.length := by
    rw [Table.idx?, hcolsflat, List.findIdx?_append]
    have h0 : t.cols.findIdx? (fun x => x == "Final_Exam_Score_brut") = none :=
      List.findIdx?_eq_none_iff.mpr
        (fun x hx => beq_eq_false_iff_ne.mpr (fun he => hbr (he ▸ hx)))
    rw [h0]
    simp
  have htr : transform cfg t u = t3.dropCol "Final_Exam_Score_brut" := rfl
  constructor
  · rw [htr, dropCol_of_idx?_some hidxb]
    show (t3.cols.eraseIdx t.cols.length) = _
    rw [hcolsflat, List.eraseIdx_append_of_length_le (Nat.le_refl _)]
    simp
  · intro c hc
    have hcne_br : c ≠ "Final_Exam_Score_brut" := fun he => hbr (he ▸ hc)
    have hcne_fe : c ≠ "Final_Exam_Score" := fun he => hfe (he ▸ hc)
    have hcne_pa : c ≠ "Passed_Course" := fun he => hpa (he ▸ hc)
    rw [htr, getCol?_dropCol_ne hwf3 hcne_br, ht3def,
      getCol?_setCol_ne hwf2 hpclen hcne_pa, ht2def,
      getCol?_setCol_ne hwf1 hsclen hcne_fe, ht1def,
      getCol?_setCol_ne hwf hraw hcne_br]

/-- Counterexample to C4 as stated: a validated input that already has a
column named Final_Exam_Score passes validation, yet the transform
overwrites that original column's value (5 becomes the computed score 8). -/
theorem C4_counterexample :
    (missingPredictors (Table.mk ["Hours_Studied", "Previous_Score",
        "Attendance_Rate", "Final_Exam_Score"] [[0, 0, 0, 5]]) = [] ∧
      (Table.mk ["Hours_Studied", "Previous_Score", "Attendance_Rate",
        "Final_Exam_Score"] [[0, 0, 0, 5]]).WF ∧
      ([1/2] : List ℚ).length = (Table.mk ["Hours_Studied", "Previous_Score",
        "Attendance_Rate", "Final_Exam_Score"] [[0, 0, 0, 5]]).rows.length ∧
      "Final_Exam_Score" ∈ (Table.mk ["Hours_Studied", "Previous_Score",
        "Attendance_Rate", "Final_Exam_Score"] [[0, 0, 0, 5]]).cols) ∧
    (transform defaultConfig (Table.mk ["Hours_Studied", "Previous_Score",
        "Attendance_Rate", "Final_Exam_Score"] [[0, 0, 0, 5]]) [1/2]).getCol?
        "Final_Exam_Score" ≠
      (Table.mk ["Hours_Studied", "Previous_Score", "Attendance_Rate",
        "Final_Exam_Score"] [[0, 0, 0, 5]]).getCol? "Final_Exam_Score" := by
  refine ⟨⟨by decide, by decide, by decide, by decide⟩, ?_⟩
  have hwfX : (Table.mk ["Hours_Studied", "Previous_Score", "Attendance_Rate",
      "Final_Exam_Score"] [[0, 0, 0, 5]]).WF := by decide
  have h := (transform_getCol? defaultConfig [1/2] hwfX (by decide)
    (by decide)).1
  rw [h]
  have hsc : scoresOf defaultConfig (Table.mk ["Hours_Studied",
      "Previous_Score", "Attendance_Rate", "Final_Exam_Score"]
      [[0, 0, 0, 5]]) [1/2] = [8] := by
    simp [scoresOf, rawScores, zipWith4, bruit_aleatoire, rawFormula,
      clipScore, Table.col, Table.getCol?, Table.idx?, defaultConfig]
    norm_num
  rw [hsc]
  simp [Table.getCol?, Table.idx?]

/-- C4 (amended): for every validated wellformed input whose columns avoid
the reserved derived names, the output has exactly the input's row count
and every original column's values are unchanged. -/
theorem C4_amended_row_preservation (cfg : Config) (t : Table) (u : List ℚ)
    (hwf : t.WF) (hv : missingPredictors t = [])
    (hu : u.length = t.rows.length)
    (hbr : "Final_Exam_Score_brut" ∉ t.cols)
    (hfe : "Final_Exam_Score" ∉ t.cols)
    (hpa : "Passed_Course" ∉ t.cols) :
    (transform cfg t u).rows.length = t.rows.length ∧
    ∀ c ∈ t.cols, (transform cfg t u).getCol? c = t.getCol? c :=
  ⟨(transform_getCol? cfg u hwf hv hu).2.2,
    (transform_preserves_of_no_reserved cfg u hwf hv hu hbr hfe hpa).2⟩

/-- Witness for the amended C4 on a concrete table with an extra column. -/
theorem C4_amended_witness :
    (transform defaultConfig (Table.mk ["Hours_Studied", "Previous_Score",
        "Attendance_Rate", "Age"] [[1, 2, 3, 4]]) [1/2]).rows.length =
      (Table.mk ["Hours_Studied", "Previous_Score", "Attendance_Rate", "Age"]
        [[1, 2, 3, 4]]).rows.length ∧
    ∀ c ∈ (Table.mk ["Hours_Studied", "Previous_Score", "Attendance_Rate",
        "Age"] [[1, 2, 3, 4]]).cols,
      (transform defaultConfig (Table.mk ["Hours_Studied", "Previous_Score",
        "Attendance_Rate", "Age"] [[1, 2, 3, 4]]) [1/2]).getCol? c =
      (Table.mk ["Hours_Studied", "Previous_Score", "Attendance_Rate", "Age"]
        [[1, 2, 3, 4]]).getCol? c :=
  C4_amended_row_preservation defaultConfig
    (Table.mk ["Hours_Studied", "Previous_Score", "Attendance_Rate", "Age"]
      [[1, 2, 3, 4]]) [1/2] (by decide) (by decide) (by decide) (by decide)
    (by decide) (by decide)

/-- Counterexample to C8 as stated: an original extra column that happens to
be named Final_Exam_Score_brut is dropped from the output, so not every
original column survives. -/
theorem C8_counterexample :
    missingPredictors (Table.mk ["Hours_Studied", "Previous_Score",
        "Attendance_Rate", "Final_Exam_Score_brut"] [[0, 0, 0, 7]]) = [] ∧
    (Table.mk ["Hours_Studied", "Previous_Score", "Attendance_Rate",
        "Final_Exam_Score_brut"] [[0, 0, 0, 7]]).WF ∧
    "Final_Exam_Score_brut" ∈ (Table.mk ["Hours_Studied", "Previous_Score",
        "Attendance_Rate", "Final_Exam_Score_brut"] [[0, 0, 0, 7]]).cols ∧
    "Final_Exam_Score_brut" ∉ (transform defaultConfig
      (Table.mk ["Hours_Studied", "Previous_Score", "Attendance_Rate",
        "Final_Exam_Score_brut"] [[0, 0, 0, 7]]) [1/2]).cols := by
  decide

/-- C8 (amended): for every validated wellformed input whose columns avoid
the reserved derived names, the output columns are exactly the originals
followed by Final_Exam_Score and Passed_Course, original values are
unchanged, and the temporary raw column is absent. -/
theorem C8_amended_output_columns (cfg : Config) (t : Table) (u : List ℚ)
    (hwf : t.WF) (hv : missingPredictors t = [])
    (hu : u.length = t.rows.length)
    (hbr : "Final_Exam_Score_brut" ∉ t.cols)
    (hfe : "Final_Exam_Score" ∉ t.cols)
    (hpa : "Passed_Course" ∉ t.cols) :
    (transform cfg t u).cols =
      t.cols ++ ["Final_Exam_Score", "Passed_Course"] ∧
    (∀ c ∈ t.cols, (transform cfg t u).getCol? c = t.getCol? c) ∧
    "Final_Exam_Score_brut" ∉ (transform cfg t u).cols := by
  obtain ⟨hcols, hpres⟩ :=
    transform_preserves_of_no_reserved cfg u hwf hv hu hbr hfe hpa
  refine ⟨hcols, hpres, ?_⟩
  rw [hcols, List.mem_append]
  rintro (h | h)
  · exact hbr h
  · exact absurd h (by decide)

/-- Witness for the amended C8 on a concrete table with an extra column. -/
theorem C8_amended_witness :
    (transform defaultConfig (Table.mk ["Hours_Studied", "Previous_Score",
        "Attendance_Rate", "Group"] [[2, 3, 4, 1]]) [1/2]).cols =
      (Table.mk ["Hours_Studied", "Previous_Score", "Attendance_Rate",
        "Group"] [[2, 3, 4, 1]]).cols ++
        ["Final_Exam_Score", "Passed_Course"] ∧
    (∀ c ∈ (Table.mk ["Hours_Studied", "Previous_Score", "Attendance_Rate",
        "Group"] [[2, 3, 4, 1]]).cols,
      (transform defaultConfig (Table.mk ["Hours_Studied", "Previous_Score",
        "Attendance_Rate", "Group"] [[2, 3, 4, 1]]) [1/2]).getCol? c =
      (Table.mk ["Hours_Studied", "Previous_Score", "Attendance_Rate",
        "Group"] [[2, 3, 4, 1]]).getCol? c) ∧
    "Final_Exam_Score_brut" ∉ (transform defaultConfig
      (Table.mk ["Hours_Studied", "Previous_Score", "Attendance_Rate",
        "Group"] [[2, 3, 4, 1]]) [1/2]).cols :=
  C8_amended_output_columns defaultConfig
    (Table.mk ["Hours_Studied", "Previous_Score", "Attendance_Rate", "Group"]
      [[2, 3, 4, 1]]) [1/2] (by decide) (by decide) (by decide) (by decide)
    (by decide) (by decide)
